import Mathlib

/-!
Verification of the telephony realtime-bridge repository against its
natural-language specification.

The definitions below are shallow embeddings of the repository's source
code.  JavaScript/TypeScript machine integers are modelled as `Nat`/`Int`
(with explicit wrap-arounds where the source relies on 32-bit behaviour),
byte strings as `List Nat` (each element < 256), fallible operations as
`Option`, and the two WebSocket handlers as explicit state-transition
functions producing lists of emitted messages.
-/

set_option maxRecDepth 10000

namespace VerbCaller

/-! ## Frame buffer (`AudioFrameBuffer` in `src/app/api/stream/twilio/route.ts`)

`TWILIO_FRAME_SIZE = 160`, `MAX_PENDING_FRAMES = 100`.  `enqueue(data)`
first trims the queue when it already holds at least `MAX_PENDING_FRAMES`
frames (`this.queue = this.queue.slice(-MAX_PENDING_FRAMES / 2)`, i.e. it
keeps the newest 50 frames), then splits `data` into 160-byte frames,
padding a trailing partial frame with 0xFF (mu-law silence). -/

/-- The frame-splitting loop of `AudioFrameBuffer.enqueue`
(`for (let i = 0; i < data.length; i += TWILIO_FRAME_SIZE) ...`):
full 160-byte slices are pushed as-is; a nonempty trailing slice is
padded with `0xff` to 160 bytes. -/
def framesOf (data : List Nat) : List (List Nat) :=
  if h : data = [] then []
  else if (data.take 160).length = 160 then
    data.take 160 :: framesOf (data.drop 160)
  else
    [data.take 160 ++ List.replicate (160 - (data.take 160).length) 255]
termination_by data.length
decreasing_by
  simp only [List.length_drop]
  have hlen : data.length ≠ 0 := by simpa [List.length_eq_zero] using h
  omega

/-- `AudioFrameBuffer.enqueue`: the queue trim (`slice(-50)` whenever the
queue already holds ≥ 100 frames) followed by appending the split frames. -/
def enqueueFrames (queue : List (List Nat)) (data : List Nat) : List (List Nat) :=
  let q := if 100 ≤ queue.length then queue.drop (queue.length - 50) else queue
  q ++ framesOf data

lemma framesOf_nil : framesOf [] = [] := by
  rw [framesOf]; simp

lemma framesOf_of_ge (data : List Nat) (h : 160 ≤ data.length) :
    framesOf data = data.take 160 :: framesOf (data.drop 160) := by
  have hne : data ≠ [] := by
    intro he; subst he; simp at h
  have hlen : (data.take 160).length = 160 := by
    simp [List.length_take]; omega
  rw [framesOf, dif_neg hne, if_pos hlen]

lemma framesOf_of_lt (data : List Nat) (h0 : data ≠ []) (h : data.length < 160) :
    framesOf data = [data ++ List.replicate (160 - data.length) 255] := by
  have ht : data.take 160 = data := List.take_of_length_le (by omega)
  have hlen : (data.take 160).length ≠ 160 := by
    rw [ht]; omega
  rw [framesOf, dif_neg h0, if_neg hlen, ht]

/-- Concatenation of all produced frames: the input followed by the 0xFF
padding that completes the last frame. -/
lemma framesOf_flatten (data : List Nat) :
    (framesOf data).flatten =
      data ++ List.replicate ((160 - data.length % 160) % 160) 255 := by
  induction data using framesOf.induct with
  | case1 => simp [framesOf_nil]
  | case2 data hne hlen ih =>
    have h160 : 160 ≤ data.length := by
      by_contra hc
      push_neg at hc
      rw [List.length_take] at hlen
      omega
    rw [framesOf_of_ge data h160, List.flatten_cons, ih]
    have hd : (data.drop 160).length = data.length - 160 := by simp
    have hmod : (data.length - 160) % 160 = data.length % 160 := by
      conv_rhs => rw [show data.length = (data.length - 160) + 160 by omega]
      simp [Nat.add_mod_right]
    rw [hd, hmod, ← List.append_assoc, List.take_append_drop]
  | case3 data hne hlen =>
    have h160 : data.length < 160 := by
      rw [List.length_take] at hlen
      have := List.length_pos.mpr hne
      omega
    rw [framesOf_of_lt data hne h160]
    have h1 : data.length % 160 = data.length := Nat.mod_eq_of_lt h160
    have h2 : (160 - data.length) % 160 = 160 - data.length := by
      have : data.length ≠ 0 := by
        simpa [List.length_eq_zero] using hne
      exact Nat.mod_eq_of_lt (by omega)
    simp [h1, h2]

/-- Number of produced frames: `ceil (length / 160)`. -/
lemma framesOf_length (data : List Nat) :
    (framesOf data).length = (data.length + 159) / 160 := by
  induction data using framesOf.induct with
  | case1 => simp [framesOf_nil]
  | case2 data hne hlen ih =>
    have h160 : 160 ≤ data.length := by
      by_contra hc
      push_neg at hc
      rw [List.length_take] at hlen
      omega
    rw [framesOf_of_ge data h160, List.length_cons, ih]
    have hd : (data.drop 160).length = data.length - 160 := by simp
    rw [hd]
    omega
  | case3 data hne hlen =>
    have h160 : data.length < 160 := by
      rw [List.length_take] at hlen
      have := List.length_pos.mpr hne
      omega
    have : data.length ≠ 0 := by simpa [List.length_eq_zero] using hne
    rw [framesOf_of_lt data hne h160]
    simp only [List.length_singleton]
    omega

/-- Every produced frame is exactly 160 bytes. -/
lemma framesOf_frame_length (data : List Nat) :
    ∀ f ∈ framesOf data, f.length = 160 := by
  induction data using framesOf.induct with
  | case1 => simp [framesOf_nil]
  | case2 data hne hlen ih =>
    have h160 : 160 ≤ data.length := by
      by_contra hc
      push_neg at hc
      rw [List.length_take] at hlen
      omega
    rw [framesOf_of_ge data h160]
    intro f hf
    rcases List.mem_cons.mp hf with hf | hf
    · subst hf; simp [List.length_take]; omega
    · exact ih f hf
  | case3 data hne hlen =>
    have h160 : data.length < 160 := by
      rw [List.length_take] at hlen
      have := List.length_pos.mpr hne
      omega
    rw [framesOf_of_lt data hne h160]
    intro f hf
    simp only [List.mem_singleton] at hf
    subst hf
    simp only [List.length_append, List.length_replicate]
    omega

lemma enqueueFrames_of_lt (q : List (List Nat)) (data : List Nat)
    (h : q.length < 100) : enqueueFrames q data = q ++ framesOf data := by
  unfold enqueueFrames
  rw [if_neg (by omega)]

lemma enqueueFrames_of_ge (q : List (List Nat)) (data : List Nat)
    (h : 100 ≤ q.length) :
    enqueueFrames q data = q.drop (q.length - 50) ++ framesOf data := by
  unfold enqueueFrames
  rw [if_pos h]

/-- C5: every nonempty byte string handed to `AudioFrameBuffer.enqueue` is
appended to the queue as `ceil (k / 160)` frames of exactly 160 bytes each,
in input order; concatenating the produced frames gives back the input
followed by the 0xFF (mu-law silence) padding that fills the final frame,
so when `k` is not a multiple of 160 the final frame carries the input's
trailing `k mod 160` bytes followed by 0xFF bytes. -/
theorem enqueue_splits_into_padded_frames (q : List (List Nat))
    (data : List Nat) (_hd : 0 < data.length) :
    framesOf data <:+ enqueueFrames q data ∧
    (framesOf data).length = (data.length + 159) / 160 ∧
    (∀ f ∈ framesOf data, f.length = 160) ∧
    (framesOf data).flatten =
      data ++ List.replicate ((160 - data.length % 160) % 160) 255 := by
  refine ⟨?_, framesOf_length data, framesOf_frame_length data,
    framesOf_flatten data⟩
  by_cases h : 100 ≤ q.length
  · rw [enqueueFrames_of_ge q data h]
    exact List.suffix_append _ _
  · rw [enqueueFrames_of_lt q data (by omega)]
    exact List.suffix_append _ _

/-- Witness for C5 at a concrete 170-byte input enqueued onto a queue
holding one frame. -/
theorem enqueue_splits_into_padded_frames_witness :
    0 < (List.replicate 170 7).length ∧
    (framesOf (List.replicate 170 7) <:+
        enqueueFrames [List.replicate 160 9] (List.replicate 170 7) ∧
      (framesOf (List.replicate 170 7)).length =
        ((List.replicate 170 7 : List Nat).length + 159) / 160 ∧
      (∀ f ∈ framesOf (List.replicate 170 7), f.length = 160) ∧
      (framesOf (List.replicate 170 7)).flatten =
        List.replicate 170 7 ++
          List.replicate ((160 - (List.replicate 170 7 : List Nat).length % 160) % 160) 255) :=
  ⟨by decide,
    enqueue_splits_into_padded_frames [List.replicate 160 9]
      (List.replicate 170 7) (by decide)⟩

/-- Counterexample to C4 as stated: a single enqueue of a 50000-byte audio
delta onto an empty queue makes the queue grow to 313 frames — beyond 100 —
yet nothing is dropped: the very first (oldest) frame is still at the head
of the queue and all 313 produced frames remain.  The trim in
`AudioFrameBuffer.enqueue` runs only at the start of an enqueue call, on the
frames left over from earlier calls. -/
theorem enqueue_overflow_counterexample :
    (enqueueFrames [] (List.replicate 50000 0)).length = 313 ∧
    100 < (enqueueFrames [] (List.replicate 50000 0)).length ∧
    (enqueueFrames [] (List.replicate 50000 0)).head? =
      some (List.replicate 160 0) := by
  have hrlen : (List.replicate 50000 (0 : Nat)).length = 50000 :=
    List.length_replicate 50000 0
  have he : enqueueFrames [] (List.replicate 50000 0) =
      framesOf (List.replicate 50000 0) := by
    rw [enqueueFrames_of_lt _ _ (by norm_num), List.nil_append]
  have hlen : (framesOf (List.replicate 50000 0)).length = 313 := by
    rw [framesOf_length, hrlen]
  have hhead : (framesOf (List.replicate 50000 0)).head? =
      some (List.replicate 160 0) := by
    rw [framesOf_of_ge _ (by rw [hrlen]; norm_num), List.head?_cons,
      List.take_replicate, show min 160 50000 = 160 from rfl]
  refine ⟨he ▸ hlen, ?_, he ▸ hhead⟩
  rw [he, hlen]
  omega

/-- C4 (amended): the overflow trim happens when `enqueue` is called with
the queue already holding at least 100 frames; it then keeps only the
newest 50 queued frames (dropping the oldest `length - 50`, which is
exactly 50 when the queue holds exactly 100) before appending the new
frames in FIFO order.  A call that itself pushes the queue past 100 frames
drops nothing; the trim occurs at the start of the next call. -/
theorem enqueue_overflow_trims_to_newest_50 (q : List (List Nat))
    (data : List Nat) :
    (100 ≤ q.length →
      enqueueFrames q data = q.drop (q.length - 50) ++ framesOf data ∧
      (q.drop (q.length - 50)).length = 50 ∧
      q.take (q.length - 50) ++ q.drop (q.length - 50) = q) ∧
    (q.length < 100 → enqueueFrames q data = q ++ framesOf data) := by
  constructor
  · intro h
    refine ⟨enqueueFrames_of_ge q data h, ?_, List.take_append_drop _ _⟩
    simp only [List.length_drop]
    omega
  · intro h
    exact enqueueFrames_of_lt q data h

/-- Witness for the amended C4 at a queue of exactly 100 frames. -/
theorem enqueue_overflow_trims_to_newest_50_witness :
    enqueueFrames (List.replicate 100 [1]) [7] =
      (List.replicate 100 ([1] : List Nat)).drop 50 ++ framesOf [7] ∧
    ((List.replicate 100 ([1] : List Nat)).drop 50).length = 50 := by
  have h := (enqueue_overflow_trims_to_newest_50 (List.replicate 100 [1]) [7]).1
    (by decide)
  exact ⟨h.1, h.2.1⟩

/-! ## Transcript store (`src/lib/live.ts`, in-memory backend)

`publishTranscript` pushes an event onto the per-key array;
`listTranscriptFrom` returns `arr.slice(fromIndex).map(JSON.stringify)`
together with the caller's next cursor `fromIndex + items.length`. -/

/-- The `type` discriminator of a `TranscriptEvent`. -/
inductive TKind where
  | audioTranscriptDelta
  | textDelta
  | transcriptKind
deriving DecidableEq

/-- `TranscriptEvent` from `src/lib/live.ts`: `{t, type, text}`. -/
structure TranscriptEvent where
  t : Int
  kind : TKind
  text : String
deriving DecidableEq

def kindLabel : TKind → String
  | .audioTranscriptDelta => "audio_transcript.delta"
  | .textDelta => "text.delta"
  | .transcriptKind => "transcript"

def hexDigitChar (n : Nat) : Char :=
  if n < 10 then Char.ofNat (48 + n) else Char.ofNat (87 + n)

/-- `JSON.stringify` escaping for one character of a string value. -/
def escapeJsonChar (c : Char) : String :=
  if c = '"' then "\\\""
  else if c = '\\' then "\\\\"
  else if c = Char.ofNat 8 then "\\b"
  else if c = Char.ofNat 9 then "\\t"
  else if c = Char.ofNat 10 then "\\n"
  else if c = Char.ofNat 12 then "\\f"
  else if c = Char.ofNat 13 then "\\r"
  else if c.toNat < 32 then
    "\\u00" ++ String.mk [hexDigitChar (c.toNat / 16), hexDigitChar (c.toNat % 16)]
  else String.mk [c]

def jsonOfString (s : String) : String :=
  "\"" ++ String.join (s.data.map escapeJsonChar) ++ "\""

/-- `JSON.stringify` of a transcript event (object key order `t`, `type`,
`text`, as produced by the literal in `src/lib/live.ts`). -/
def stringifyEvent (e : TranscriptEvent) : String :=
  "\x7b\"t\":" ++ toString e.t ++ ",\"type\":" ++ jsonOfString (kindLabel e.kind)
    ++ ",\"text\":" ++ jsonOfString e.text ++ "\x7d"

/-- `publishTranscript` (memory path): `arr.push(ev)`. -/
def publishTranscript (store : List TranscriptEvent) (ev : TranscriptEvent) :
    List TranscriptEvent :=
  store ++ [ev]

/-- `listTranscriptFrom` (memory path):
`items = arr.slice(fromIndex).map(JSON.stringify)`, `next = fromIndex + items.length`. -/
def listTranscriptFrom (store : List TranscriptEvent) (fromIndex : Nat) :
    List String × Nat :=
  let items := (store.drop fromIndex).map stringifyEvent
  (items, fromIndex + items.length)

/-- One client interaction with the transcript store. -/
inductive TOp where
  | pub (e : TranscriptEvent)
  | read
deriving DecidableEq

/-- Protocol state: the store contents, the cursor the client would pass to
its next read (starting from 0), and the batches returned so far. -/
structure TState where
  store : List TranscriptEvent
  cursor : Nat
  batches : List (List String)
deriving DecidableEq

def stepT (s : TState) : TOp → TState
  | .pub e => ⟨publishTranscript s.store e, s.cursor, s.batches⟩
  | .read =>
    let r := listTranscriptFrom s.store s.cursor
    ⟨s.store, r.2, s.batches ++ [r.1]⟩

def runT (s : TState) (ops : List TOp) : TState := ops.foldl stepT s

lemma listTranscriptFrom_next (store : List TranscriptEvent) (cursor : Nat)
    (h : cursor ≤ store.length) :
    (listTranscriptFrom store cursor).2 = store.length := by
  simp only [listTranscriptFrom, List.length_map, List.length_drop]
  omega

lemma runT_invariant (ops : List TOp) (s : TState)
    (hj : s.batches.flatten = (s.store.take s.cursor).map stringifyEvent)
    (hc : s.cursor ≤ s.store.length) :
    (runT s ops).batches.flatten =
      ((runT s ops).store.take (runT s ops).cursor).map stringifyEvent ∧
    (runT s ops).cursor ≤ (runT s ops).store.length := by
  induction ops generalizing s with
  | nil => exact ⟨hj, hc⟩
  | cons op ops ih =>
    rw [runT, List.foldl_cons, ← runT]
    cases op with
    | pub e =>
      refine ih _ ?_ ?_
      · simpa [stepT, publishTranscript, List.take_append_of_le_length hc]
          using hj
      · simp only [stepT, publishTranscript, List.length_append,
          List.length_singleton]
        omega
    | read =>
      refine ih _ ?_ ?_
      · simp only [stepT, listTranscriptFrom, List.flatten_append,
          List.flatten_cons, List.flatten_nil, List.append_nil, hj,
          List.length_map, List.length_drop]
        rw [show s.cursor + (s.store.length - s.cursor) = s.store.length by
          omega]
        rw [List.take_length, ← List.map_append, List.take_append_drop]
      · simp only [stepT, listTranscriptFrom, List.length_map,
          List.length_drop]
        omega

lemma runT_append (s : TState) (l₁ l₂ : List TOp) :
    runT s (l₁ ++ l₂) = runT (runT s l₁) l₂ :=
  List.foldl_append ..

/-- C9: in the memory-backed transcript store, a client that starts at
cursor 0 and always passes the cursor returned by its previous read sees
the full appended sequence: the concatenation of the returned batches is
exactly the stringified prefix of the store up to the current cursor
(hence no gaps and no duplicates), the cursor never runs past the store,
a read at a valid cursor always returns the store's current length as the
next cursor, and when the interaction ends with a read the batches
concatenate to the entire appended sequence in insertion order. -/
theorem transcript_range_replays_all (ops : List TOp) :
    (runT ⟨[], 0, []⟩ ops).batches.flatten =
      ((runT ⟨[], 0, []⟩ ops).store.take
        (runT ⟨[], 0, []⟩ ops).cursor).map stringifyEvent ∧
    (runT ⟨[], 0, []⟩ ops).cursor ≤ (runT ⟨[], 0, []⟩ ops).store.length ∧
    (∀ store cursor, cursor ≤ store.length →
      (listTranscriptFrom store cursor).2 = store.length) ∧
    ((∃ pre, ops = pre ++ [TOp.read]) →
      (runT ⟨[], 0, []⟩ ops).batches.flatten =
        (runT ⟨[], 0, []⟩ ops).store.map stringifyEvent) := by
  have base := runT_invariant ops ⟨[], 0, []⟩ (by simp) (by simp)
  refine ⟨base.1, base.2, fun store cursor h =>
    listTranscriptFrom_next store cursor h, ?_⟩
  rintro ⟨pre, rfl⟩
  have hpre := runT_invariant pre ⟨[], 0, []⟩ (by simp) (by simp)
  rw [runT_append]
  set mid := runT ⟨[], 0, []⟩ pre with hmid
  show (runT mid [TOp.read]).batches.flatten =
    (runT mid [TOp.read]).store.map stringifyEvent
  simp only [runT, List.foldl_cons, List.foldl_nil, stepT,
    listTranscriptFrom, List.flatten_append, List.flatten_cons,
    List.flatten_nil, List.append_nil]
  rw [hpre.1, ← List.map_append, List.take_append_drop]

/-- Witness for C9: a concrete interleaving `pub, read, pub, pub, read`
replays the three appended events exactly once, in order. -/
theorem transcript_range_replays_all_witness :
    (runT ⟨[], 0, []⟩ [TOp.pub ⟨1, .textDelta, "a"⟩, TOp.read,
        TOp.pub ⟨2, .audioTranscriptDelta, "b"⟩,
        TOp.pub ⟨3, .textDelta, "c"⟩, TOp.read]).batches.flatten =
      (runT ⟨[], 0, []⟩ [TOp.pub ⟨1, .textDelta, "a"⟩, TOp.read,
        TOp.pub ⟨2, .audioTranscriptDelta, "b"⟩,
        TOp.pub ⟨3, .textDelta, "c"⟩, TOp.read]).store.map stringifyEvent :=
  (transcript_range_replays_all _).2.2.2
    ⟨[TOp.pub ⟨1, .textDelta, "a"⟩, TOp.read,
      TOp.pub ⟨2, .audioTranscriptDelta, "b"⟩,
      TOp.pub ⟨3, .textDelta, "c"⟩], rfl⟩

/-! ## JSON values

JavaScript objects are modelled as association lists in property-insertion
order (the order `Object.keys` and object spreads observe).  Numbers are
modelled as rationals. -/

inductive JVal where
  | jstr (s : String)
  | jnum (q : Rat)
  | jbool (b : Bool)
  | jnull
  | jarr (elems : List JVal)
  | jobj (fields : List (String × JVal))

/-- Property names of an object, in insertion order (`Object.keys`). -/
def keysOf (fields : List (String × JVal)) : List String := fields.map Prod.fst

/-- JavaScript property assignment `obj[k] = v`: overwrites in place when
the key exists (keeping its position), otherwise appends. -/
def jsSetKey : List (String × JVal) → String → JVal → List (String × JVal)
  | [], k, v => [(k, v)]
  | (k', v') :: rest, k, v =>
    if k' = k then (k', v) :: rest else (k', v') :: jsSetKey rest k v

/-- JavaScript `delete obj[k]`. -/
def jsDeleteKey (fields : List (String × JVal)) (k : String) :
    List (String × JVal) :=
  fields.filter (fun p => p.1 ≠ k)

/-! ## Bridge state machine
(`handleOpenAIMessage` and friends in `src/twilio-websocket-server/server.js`)

Per-connection mutable state, the model-socket events the handler consumes,
and the frames it sends, as an explicit transition function.  Events whose
handler only logs are collapsed into `otherEvent`. -/

/-- Per-connection state of the standalone bridge (`const state = {...}` in
`server.js`), plus the readiness of the two sockets, which the handler
consults before sending. -/
structure BridgeState where
  streamSid : String
  lastAssistantItem : Option String
  responseStartTimestamp : Option Int
  latestMediaTimestamp : Option Int
  isResponseActive : Bool
  hasInterrupted : Bool
  pendingSessionConfig : Option (List (String × JVal))
  oaiOpen : Bool
  twilioOpen : Bool

/-- Model-socket events distinguished by `handleOpenAIMessage`; all events
whose case only logs are `otherEvent`. -/
inductive OAIEvent where
  | sessionCreated
  | itemCreated (isAssistantMessage : Bool) (itemId : Option String)
  | speechStarted
  | responseCreated
  | outputItemAdded (itemId : Option String)
  | audioDelta (delta : Option String) (itemId : Option String)
  | responseDone
  | responseCancelled
  | otherEvent
deriving DecidableEq

/-- Frames the bridge sends while handling a model event: to the model
socket (`session.update`, `conversation.item.truncate`) or to the carrier
socket (`clear`, `media`, `mark`). -/
inductive BridgeOut where
  | sessionUpdate (session : List (String × JVal))
  | truncateItem (itemId : String) (contentIndex : Nat) (audioEndMs : Int)
  | clearFrame (streamSid : String)
  | mediaFrame (streamSid : String) (payload : String)
  | markFrame (streamSid : String)

/-- `handleOpenAIMessage` from `server.js`, as a transition returning the
new state and the frames sent, in order. -/
def handleOpenAIMessage (s : BridgeState) : OAIEvent → BridgeState × List BridgeOut
  | .sessionCreated =>
    match s.pendingSessionConfig with
    | some cfg => ({ s with pendingSessionConfig := none }, [.sessionUpdate cfg])
    | none => (s, [])
  | .itemCreated isAssistant itemId =>
    if isAssistant then
      match itemId with
      | some i => ({ s with lastAssistantItem := some i }, [])
      | none => (s, [])
    else (s, [])
  | .speechStarted =>
    let outsClear : List BridgeOut := [.clearFrame s.streamSid]
    if s.isResponseActive ∧ s.lastAssistantItem.isSome ∧ ¬s.hasInterrupted then
      let audioEndMs : Int :=
        match s.responseStartTimestamp with
        | some st => max 0 ((s.latestMediaTimestamp.getD 0) - st)
        | none => 0
      if s.oaiOpen then
        ({ s with hasInterrupted := true },
          outsClear ++ [.truncateItem (s.lastAssistantItem.getD "") 0 audioEndMs])
      else (s, outsClear)
    else (s, outsClear)
  | .responseCreated =>
    ({ s with isResponseActive := true, hasInterrupted := false }, [])
  | .outputItemAdded itemId =>
    match itemId with
    | some i => ({ s with lastAssistantItem := some i }, [])
    | none => (s, [])
  | .audioDelta delta itemId =>
    match delta with
    | some d =>
      if s.twilioOpen then
        let s₁ :=
          if s.responseStartTimestamp = none ∧ s.latestMediaTimestamp ≠ none then
            { s with responseStartTimestamp := s.latestMediaTimestamp }
          else s
        let s₂ :=
          match itemId with
          | some i => { s₁ with lastAssistantItem := some i }
          | none => s₁
        (s₂, [.mediaFrame s.streamSid d, .markFrame s.streamSid])
      else (s, [])
    | none => (s, [])
  | .responseDone =>
    ({ s with
        isResponseActive := false
        lastAssistantItem := none
        responseStartTimestamp := none }, [])
  | .responseCancelled =>
    ({ s with
        isResponseActive := false
        lastAssistantItem := none
        responseStartTimestamp := none }, [])
  | .otherEvent => (s, [])

/-- Run the bridge over a sequence of model events, collecting all frames
sent, in order. -/
def runBridge (s : BridgeState) : List OAIEvent → BridgeState × List BridgeOut
  | [] => (s, [])
  | ev :: evs =>
    let r := handleOpenAIMessage s ev
    let rest := runBridge r.1 evs
    (rest.1, r.2 ++ rest.2)

/-- The `conversation.item.truncate` frames among a list of sent frames. -/
def truncatesAmong (outs : List BridgeOut) : List BridgeOut :=
  outs.filter fun o => match o with
    | .truncateItem .. => true
    | _ => false

lemma step_no_truncate_of_interrupted (s : BridgeState) (ev : OAIEvent)
    (hs : s.hasInterrupted = true) (hev : ev ≠ OAIEvent.responseCreated) :
    truncatesAmong (handleOpenAIMessage s ev).2 = [] ∧
    (handleOpenAIMessage s ev).1.hasInterrupted = true := by
  cases ev with
  | sessionCreated =>
    cases hp : s.pendingSessionConfig <;>
      simp [handleOpenAIMessage, hp, truncatesAmong, hs]
  | itemCreated b i =>
    cases b <;> cases i <;> simp [handleOpenAIMessage, truncatesAmong, hs]
  | speechStarted =>
    simp [handleOpenAIMessage, hs, truncatesAmong]
  | responseCreated => exact absurd rfl hev
  | outputItemAdded i =>
    cases i <;> simp [handleOpenAIMessage, truncatesAmong, hs]
  | audioDelta d i =>
    cases d <;> cases i <;>
      by_cases ht : s.twilioOpen <;>
        simp [handleOpenAIMessage, truncatesAmong, hs, ht] <;>
          split <;> simp [hs]
  | responseDone => simp [handleOpenAIMessage, truncatesAmong, hs]
  | responseCancelled => simp [handleOpenAIMessage, truncatesAmong, hs]
  | otherEvent => simp [handleOpenAIMessage, truncatesAmong, hs]

lemma run_no_truncate_of_interrupted (evs : List OAIEvent) (s : BridgeState)
    (hs : s.hasInterrupted = true) (hev : OAIEvent.responseCreated ∉ evs) :
    truncatesAmong (runBridge s evs).2 = [] := by
  induction evs generalizing s with
  | nil => simp [runBridge, truncatesAmong]
  | cons ev evs ih =>
    have hne : ev ≠ OAIEvent.responseCreated := fun h => hev (h ▸ List.mem_cons_self _ _)
    have hstep := step_no_truncate_of_interrupted s ev hs hne
    have hrest := ih (handleOpenAIMessage s ev).1 hstep.2
      (fun h => hev (List.mem_cons_of_mem _ h))
    simp only [runBridge, truncatesAmong, List.filter_append] at *
    rw [hstep.1, hrest]
    simp

/-- C1: with a response active, a known last-assistant-item id, and no
truncate yet issued for the response, a `speech_started` event makes the
bridge send exactly one `conversation.item.truncate` with that item id,
`content_index 0`, and
`audio_end_ms = max(0, latest-media - response-start)` (0 when the
response-start timestamp is unknown); afterwards, any further events that
do not include `response.created` — in particular further
`speech_started` — produce no additional truncate. -/
theorem speech_started_truncates_exactly_once (s : BridgeState) (iid : String)
    (hact : s.isResponseActive = true)
    (hitem : s.lastAssistantItem = some iid)
    (hni : s.hasInterrupted = false)
    (hopen : s.oaiOpen = true) :
    (handleOpenAIMessage s .speechStarted).2 =
      [.clearFrame s.streamSid,
        .truncateItem iid 0
          (match s.responseStartTimestamp with
            | some st => max 0 ((s.latestMediaTimestamp.getD 0) - st)
            | none => 0)] ∧
    (handleOpenAIMessage s .speechStarted).1.hasInterrupted = true ∧
    ∀ evs : List OAIEvent, OAIEvent.responseCreated ∉ evs →
      truncatesAmong (runBridge (handleOpenAIMessage s .speechStarted).1 evs).2 = [] := by
  have hcond : s.isResponseActive ∧ s.lastAssistantItem.isSome ∧
      ¬s.hasInterrupted = true := by
    simp [hact, hitem, hni]
  constructor
  · simp [handleOpenAIMessage, hact, hitem, hni, hopen]
  constructor
  · simp [handleOpenAIMessage, hact, hitem, hni, hopen]
  · intro evs hevs
    refine run_no_truncate_of_interrupted evs _ ?_ hevs
    simp [handleOpenAIMessage, hact, hitem, hni, hopen]

/-- Witness for C1: the spec's S2 scenario (`response-start = 1000`,
`latest-media = 1620`) produces one truncate with `audio_end_ms = 620`,
and a later `speech_started` in the same response produces none. -/
theorem speech_started_truncates_exactly_once_witness :
    (handleOpenAIMessage
        ⟨"MZ1", some "it_9", some 1000, some 1620, true, false, none, true, true⟩
        .speechStarted).2 =
      [.clearFrame "MZ1", .truncateItem "it_9" 0 620] ∧
    truncatesAmong (runBridge
        (handleOpenAIMessage
          ⟨"MZ1", some "it_9", some 1000, some 1620, true, false, none, true, true⟩
          .speechStarted).1 [OAIEvent.speechStarted]).2 = [] := by
  have h := speech_started_truncates_exactly_once
    ⟨"MZ1", some "it_9", some 1000, some 1620, true, false, none, true, true⟩
    "it_9" rfl rfl rfl rfl
  refine ⟨?_, h.2.2 [OAIEvent.speechStarted] (by decide)⟩
  rw [h.1]
  norm_num

/-! ## Token-minter session sanitization

The repository carries two variants of `sanitizeEphemeralPayload`.  The
variant in `src/unnamed/part_011` filters the session down to an
allow-list and coerces a numeric `prompt.version` to string; the variant
in `src/lib/openai.ts` passes the session through, only deleting
`max_output_tokens === 'inf'`, an empty `embedded_media` array, and a
disabled `transcription` object.  Both are embedded below via the
session object they place in the outbound request body. -/

/-- Property lookup on an object's field list (first occurrence; `none`
models `undefined`). -/
def jsLookup : List (String × JVal) → String → Option JVal
  | [], _ => none
  | (k', v') :: rest, k => if k' = k then some v' else jsLookup rest k

/-- JavaScript truthiness of a JSON value. -/
def jsTruthy : JVal → Bool
  | .jstr s => s ≠ ""
  | .jnum q => q ≠ 0
  | .jbool b => b
  | .jnull => false
  | .jarr _ => true
  | .jobj _ => true

/-- Property read `v.k`: `none` models `undefined` (also for reads off
non-objects, which is all the embedded code does with them). -/
def jsGetField (v : JVal) (k : String) : Option JVal :=
  match v with
  | .jobj fs => jsLookup fs k
  | _ => none

/-- JavaScript `String(n)`; agrees with JS for the integral numbers the
sanitizer is applied to. -/
def jsNumToString (q : Rat) : String :=
  if q.den = 1 then toString q.num else toString q

/-- `body.session || {}` as the list of the session object's fields (a
non-object session contributes no fields to iterate). -/
def sessionFieldsOf (payload : List (String × JVal)) : List (String × JVal) :=
  match jsLookup payload "session" with
  | some (JVal.jobj fs) => fs
  | _ => []

/-- Allow-list from `src/unnamed/part_011`
(`const allowedSession = new Set([...])`). -/
def allowedSessionKeys : List String := ["type", "model", "instructions", "prompt"]

/-- The session object the `src/unnamed/part_011` sanitizer puts into the
outbound body: allow-list filter, then numeric `prompt.version` coerced to
string. -/
def sanitizedSessionFiltered (payload : List (String × JVal)) :
    List (String × JVal) :=
  let fs := sessionFieldsOf payload
  let filtered := fs.filter (fun p => p.1 ∈ allowedSessionKeys)
  match jsLookup filtered "prompt" with
  | some (JVal.jobj pf) =>
    match jsLookup pf "version" with
    | some (JVal.jnum q) =>
      jsSetKey filtered "prompt"
        (JVal.jobj (jsSetKey pf "version" (JVal.jstr (jsNumToString q))))
    | _ => filtered
  | _ => filtered

def isJNull : JVal → Bool
  | .jnull => true
  | _ => false

/-- The session object the `src/lib/openai.ts` sanitizer puts into the
outbound body: the input session with three conditional deletions and no
allow-list. -/
def sanitizedSessionPassthrough (payload : List (String × JVal)) :
    List (String × JVal) :=
  let s := sessionFieldsOf payload
  let s := match jsLookup s "max_output_tokens" with
    | some (JVal.jstr v) => if v = "inf" then jsDeleteKey s "max_output_tokens" else s
    | _ => s
  let s := match jsLookup s "embedded_media" with
    | some (JVal.jarr []) => jsDeleteKey s "embedded_media"
    | _ => s
  match jsLookup s "transcription" with
  | some tv =>
    if jsTruthy tv then
      match jsGetField tv "enabled" with
      | some (JVal.jbool false) => jsDeleteKey s "transcription"
      | none => jsDeleteKey s "transcription"
      | some _ => s
    else s
  | none => s

lemma jsLookup_jsSetKey_self (fs : List (String × JVal)) (k : String) (v : JVal) :
    jsLookup (jsSetKey fs k v) k = some v := by
  induction fs with
  | nil => simp [jsSetKey, jsLookup]
  | cons p rest ih =>
    obtain ⟨k', v'⟩ := p
    by_cases h : k' = k
    · subst h; simp [jsSetKey, jsLookup]
    · simp [jsSetKey, h, jsLookup, ih]

lemma jsLookup_jsSetKey_of_ne (fs : List (String × JVal)) (k k' : String)
    (v : JVal) (h : k' ≠ k) :
    jsLookup (jsSetKey fs k' v) k = jsLookup fs k := by
  induction fs with
  | nil => simp [jsSetKey, jsLookup, h]
  | cons p rest ih =>
    obtain ⟨k₀, v₀⟩ := p
    by_cases h₀ : k₀ = k'
    · subst h₀
      simp [jsSetKey, jsLookup, h]
    · simp [jsSetKey, h₀, jsLookup, ih]

lemma keysOf_jsSetKey_subset (fs : List (String × JVal)) (k : String)
    (v : JVal) : keysOf (jsSetKey fs k v) ⊆ k :: keysOf fs := by
  induction fs with
  | nil => simp [jsSetKey, keysOf]
  | cons p rest ih =>
    obtain ⟨k₀, v₀⟩ := p
    by_cases h₀ : k₀ = k
    · subst h₀
      simp [jsSetKey, keysOf]
    · simp only [jsSetKey, if_neg h₀, keysOf, List.map_cons]
      intro a ha
      rcases List.mem_cons.mp ha with ha | ha
      · simp [keysOf, ha]
      · have := ih ha
        rcases List.mem_cons.mp this with h | h
        · simp [h]
        · simp [keysOf] at h ⊢
          tauto

lemma jsLookup_filter_key_mem (fs : List (String × JVal)) (k : String)
    (hk : k ∈ allowedSessionKeys) :
    jsLookup (fs.filter (fun p => p.1 ∈ allowedSessionKeys)) k = jsLookup fs k := by
  induction fs with
  | nil => simp
  | cons p rest ih =>
    obtain ⟨k₀, v₀⟩ := p
    by_cases h₀ : k₀ = k
    · subst h₀
      rw [List.filter_cons_of_pos (by simpa using hk)]
      simp [jsLookup]
    · by_cases hmem : k₀ ∈ allowedSessionKeys
      · rw [List.filter_cons_of_pos (by simpa using hmem)]
        simp [jsLookup, h₀, ih]
      · rw [List.filter_cons_of_neg (by simpa using hmem)]
        simp [jsLookup, h₀, ih]

/-- C3 (amended): the `src/unnamed/part_011` minter restricts the outbound
session to the allow-list `{type, model, instructions, prompt}` and, when
the input's `prompt.version` is a number, sends its string form.  (The
`src/lib/openai.ts` variant of the minter does not do this — see the
counterexample.) -/
theorem sanitizer_session_subset (payload : List (String × JVal)) :
    keysOf (sanitizedSessionFiltered payload) ⊆ allowedSessionKeys ∧
    (∀ pf (q : Rat),
      jsLookup (sessionFieldsOf payload) "prompt" = some (JVal.jobj pf) →
      jsLookup pf "version" = some (JVal.jnum q) →
      jsLookup (sanitizedSessionFiltered payload) "prompt" =
        some (JVal.jobj (jsSetKey pf "version" (JVal.jstr (jsNumToString q)))) ∧
      jsLookup (jsSetKey pf "version" (JVal.jstr (jsNumToString q))) "version" =
        some (JVal.jstr (jsNumToString q))) := by
  have hfil : keysOf ((sessionFieldsOf payload).filter
      (fun p => p.1 ∈ allowedSessionKeys)) ⊆ allowedSessionKeys := by
    intro a ha
    simp only [keysOf, List.mem_map] at ha
    obtain ⟨p, hp, rfl⟩ := ha
    have := (List.mem_filter.mp hp).2
    simpa using this
  constructor
  · unfold sanitizedSessionFiltered
    dsimp only
    split
    next pf hpf =>
      split
      next q hq =>
        intro a ha
        have := keysOf_jsSetKey_subset _ "prompt" _ ha
        rcases List.mem_cons.mp this with h | h
        · subst h; simp [allowedSessionKeys]
        · exact hfil h
      all_goals exact hfil
    all_goals exact hfil
  · intro pf q hpf hq
    have hl : jsLookup ((sessionFieldsOf payload).filter
        (fun p => p.1 ∈ allowedSessionKeys)) "prompt" =
        some (JVal.jobj pf) := by
      rw [jsLookup_filter_key_mem _ _ (by simp [allowedSessionKeys])]
      exact hpf
    unfold sanitizedSessionFiltered
    dsimp only
    rw [hl]
    dsimp only
    rw [hq]
    exact ⟨jsLookup_jsSetKey_self .., jsLookup_jsSetKey_self ..⟩

/-- Witness for the amended C3: a session with an extra `foo` field and
`prompt.version = 5` comes out with only allow-listed keys and
`version = "5"`. -/
theorem sanitizer_session_subset_witness :
    keysOf (sanitizedSessionFiltered
      [("session", JVal.jobj
        [("type", JVal.jstr "realtime"),
         ("prompt", JVal.jobj [("id", JVal.jstr "p_1"), ("version", JVal.jnum 5)]),
         ("foo", JVal.jbool true)])]) ⊆ allowedSessionKeys ∧
    jsLookup (sanitizedSessionFiltered
      [("session", JVal.jobj
        [("type", JVal.jstr "realtime"),
         ("prompt", JVal.jobj [("id", JVal.jstr "p_1"), ("version", JVal.jnum 5)]),
         ("foo", JVal.jbool true)])]) "prompt" =
      some (JVal.jobj (jsSetKey [("id", JVal.jstr "p_1"), ("version", JVal.jnum 5)]
        "version" (JVal.jstr (jsNumToString 5)))) := by
  have h := sanitizer_session_subset
    [("session", JVal.jobj
      [("type", JVal.jstr "realtime"),
       ("prompt", JVal.jobj [("id", JVal.jstr "p_1"), ("version", JVal.jnum 5)]),
       ("foo", JVal.jbool true)])]
  exact ⟨h.1, (h.2 [("id", JVal.jstr "p_1"), ("version", JVal.jnum 5)] 5 rfl rfl).1⟩

/-- Counterexample to C3 as stated: through the `src/lib/openai.ts` variant
of the sanitizer, a session carrying a `voice` field keeps it — the
outbound session is not restricted to `{type, model, instructions,
prompt}`. -/
theorem sanitizer_passthrough_keeps_extra_keys :
    jsLookup (sanitizedSessionPassthrough
      [("session", JVal.jobj
        [("type", JVal.jstr "realtime"),
         ("model", JVal.jstr "gpt-realtime"),
         ("voice", JVal.jstr "alloy")])]) "voice" =
      some (JVal.jstr "alloy") ∧
    ¬ (keysOf (sanitizedSessionPassthrough
      [("session", JVal.jobj
        [("type", JVal.jstr "realtime"),
         ("model", JVal.jstr "gpt-realtime"),
         ("voice", JVal.jstr "alloy")])]) ⊆ allowedSessionKeys) := by
  have hev : sanitizedSessionPassthrough
      [("session", JVal.jobj
        [("type", JVal.jstr "realtime"),
         ("model", JVal.jstr "gpt-realtime"),
         ("voice", JVal.jstr "alloy")])] =
      [("type", JVal.jstr "realtime"),
       ("model", JVal.jstr "gpt-realtime"),
       ("voice", JVal.jstr "alloy")] := rfl
  constructor
  · rw [hev]; rfl
  · intro h
    have : "voice" ∈ allowedSessionKeys := h (by rw [hev]; simp [keysOf])
    simp [allowedSessionKeys] at this

/-! ## Session-update construction

Two bridges build the `session.update` payload:

* the edge bridge (`RealtimeConnectionManager.connect` in
  `src/app/api/stream/twilio/route.ts`) starts from
  `buildServerUpdateFromEnv()` (`src/lib/realtimeControl.ts`) and then
  spreads `{modalities, input_audio_format: 'g711_ulaw',
  output_audio_format: 'g711_ulaw'}` over the session, sending the result
  when the model socket opens;
* the standalone bridge (`connectToOpenAI` in
  `src/twilio-websocket-server/server.js`) assembles `sessionConfig` from
  the carrier-provided overrides and env defaults and sends it after
  `session.created` — that object never mentions any audio-format key.

Environment variables are modelled by their parsed values (the
`parseMaybeFloat`/`parseMaybeInt`/`||`-fallback plumbing is applied before
the structures below). -/

/-- `process.env.X || undefined`: an empty value behaves like an unset one. -/
def jsEnvStr (o : Option String) : Option String :=
  match o with
  | some s => if s = "" then none else some s
  | none => none

/-- Control-plane defaults consumed by `buildServerUpdateFromEnv`
(`src/lib/realtimeControl.ts`), after env parsing. -/
structure ControlEnv where
  voiceEnv : Option String
  toolChoiceEnv : Option String
  temperature : Option Rat
  maxTokens : Option Rat
  turnType : String
  vadThreshold : Rat
  vadPrefixMs : Rat
  vadSilenceMs : Rat
  realtimeMode : String
  preferCodec : String
  transcriptionEnabled : Bool
  instructionsEnv : Option String

/-- Fallback text for `REALTIME_DEFAULT_INSTRUCTIONS`. -/
def defaultInstructions : String :=
  "ROLE: Helpful AI assistant.\nOBJECTIVE: Assist users effectively.\nPERSONALITY: Friendly, professional, conversational.\nINSTRUCTIONS: ALWAYS follow user instructions. Prioritize requests. Be concise unless asked for detail.\nCONVERSATION: Listen actively. Respond helpfully. Confirm understanding."

/-- The `session` object built by `buildServerUpdateFromEnv` in
`src/lib/realtimeControl.ts` (the variant with the `useG711` codec
selection). -/
def buildServerUpdateSession (env : ControlEnv) : List (String × JVal) :=
  let turnDetection : JVal :=
    if env.turnType = "none" then JVal.jobj [("type", JVal.jstr "none")]
    else JVal.jobj [("type", JVal.jstr "server_vad"),
      ("threshold", JVal.jnum env.vadThreshold),
      ("prefix_padding_ms", JVal.jnum env.vadPrefixMs),
      ("silence_duration_ms", JVal.jnum env.vadSilenceMs),
      ("create_response", JVal.jbool true),
      ("interrupt_response", JVal.jbool true)]
  let useG711 := env.realtimeMode = "sip" ∨ env.preferCodec = "g711_ulaw" ∨
    env.preferCodec = "g711"
  let instructions :=
    match jsEnvStr env.instructionsEnv with
    | some s => s
    | none => defaultInstructions
  let s : List (String × JVal) := []
  let s := match jsEnvStr env.voiceEnv with
    | some v => jsSetKey s "voice" (JVal.jstr v)
    | none => s
  let s := if instructions ≠ "" then
      jsSetKey s "instructions" (JVal.jstr instructions) else s
  let s := match jsEnvStr env.toolChoiceEnv with
    | some tc => jsSetKey s "tool_choice" (JVal.jstr tc)
    | none => s
  let s := match env.temperature with
    | some t => jsSetKey s "temperature" (JVal.jnum t)
    | none => s
  let s := match env.maxTokens with
    | some m => jsSetKey s "max_response_output_tokens" (JVal.jnum m)
    | none => s
  let s := jsSetKey s "turn_detection" turnDetection
  let s := if useG711 then
      jsSetKey (jsSetKey s "input_audio_format" (JVal.jstr "g711_ulaw"))
        "output_audio_format" (JVal.jstr "g711_ulaw")
    else
      jsSetKey (jsSetKey s "input_audio_format" (JVal.jstr "pcm16"))
        "output_audio_format" (JVal.jstr "pcm16")
  if env.transcriptionEnabled then
    jsSetKey s "input_audio_transcription" (JVal.jobj [("model", JVal.jstr "whisper-1")])
  else s

/-- The session the edge bridge sends on model-socket open
(`route.ts`: `{...session, modalities, input_audio_format: 'g711_ulaw',
output_audio_format: 'g711_ulaw'}`). -/
def connectSessionUpdateSession (env : ControlEnv) : List (String × JVal) :=
  jsSetKey (jsSetKey (jsSetKey (buildServerUpdateSession env)
    "modalities" (JVal.jarr [JVal.jstr "audio", JVal.jstr "text"]))
    "input_audio_format" (JVal.jstr "g711_ulaw"))
    "output_audio_format" (JVal.jstr "g711_ulaw")

/-- `x && typeof x === 'object'` for a JSON value (null is falsy, arrays
are object-typed). -/
def jsIsObject : JVal → Bool
  | .jobj _ => true
  | .jarr _ => true
  | _ => false

/-- Standalone-bridge env defaults consumed by `connectToOpenAI`
(`server.js`), after env parsing. -/
structure ServerEnv where
  vadMode : String
  vadThreshold : Rat
  vadPrefixMs : Rat
  vadSilenceMs : Rat
  vadCreateResponse : Bool
  transcribeInput : Bool
  toolsEnv : Option JVal
  toolChoiceEnv : Option String

/-- The VAD default object from `connectToOpenAI`. -/
def envVadConfig (env : ServerEnv) : JVal :=
  JVal.jobj [("type", JVal.jstr env.vadMode),
    ("threshold", JVal.jnum env.vadThreshold),
    ("prefix_padding_ms", JVal.jnum env.vadPrefixMs),
    ("silence_duration_ms", JVal.jnum env.vadSilenceMs),
    ("create_response", JVal.jbool env.vadCreateResponse)]

/-- `sessionConfig` assembly, statement by statement (`server.js`,
`connectToOpenAI` open handler): start `{type:'realtime'}` and layer the
user-override fields. -/
def srvCfg1 (u : List (String × JVal)) : List (String × JVal) :=
  match jsLookup u "instructions" with
  | some (JVal.jstr s) =>
    if s.trim ≠ "" then
      jsSetKey [("type", JVal.jstr "realtime")] "instructions" (JVal.jstr s)
    else [("type", JVal.jstr "realtime")]
  | _ => [("type", JVal.jstr "realtime")]

def srvCfg2 (u : List (String × JVal)) : List (String × JVal) :=
  match jsLookup u "turn_detection" with
  | some v => if jsIsObject v then jsSetKey (srvCfg1 u) "turn_detection" v
      else srvCfg1 u
  | none => srvCfg1 u

def srvCfg3 (u : List (String × JVal)) : List (String × JVal) :=
  match jsLookup u "input_audio_transcription" with
  | some v => if jsIsObject v then
      jsSetKey (srvCfg2 u) "input_audio_transcription" v
    else srvCfg2 u
  | none => srvCfg2 u

def srvCfg4 (u : List (String × JVal)) : List (String × JVal) :=
  match jsLookup u "tools" with
  | some (JVal.jarr xs) => jsSetKey (srvCfg3 u) "tools" (JVal.jarr xs)
  | _ => srvCfg3 u

def srvCfg5 (u : List (String × JVal)) : List (String × JVal) :=
  match jsLookup u "tool_choice" with
  | some (JVal.jstr s) => jsSetKey (srvCfg4 u) "tool_choice" (JVal.jstr s)
  | _ => srvCfg4 u

/-- Env-default layering (`if (!('…' in sessionConfig)) …`). -/
def srvCfg6 (u : List (String × JVal)) (env : ServerEnv) : List (String × JVal) :=
  if (jsLookup (srvCfg5 u) "turn_detection").isSome then srvCfg5 u
  else jsSetKey (srvCfg5 u) "turn_detection" (envVadConfig env)

def srvCfg7 (u : List (String × JVal)) (env : ServerEnv) : List (String × JVal) :=
  if (jsLookup (srvCfg6 u env) "input_audio_transcription").isSome then srvCfg6 u env
  else if env.transcribeInput then
    jsSetKey (srvCfg6 u env) "input_audio_transcription"
      (JVal.jobj [("model", JVal.jstr "whisper-1")])
  else srvCfg6 u env

def srvCfg8 (u : List (String × JVal)) (env : ServerEnv) : List (String × JVal) :=
  if (jsLookup (srvCfg7 u env) "tools").isSome then srvCfg7 u env
  else match env.toolsEnv with
    | some tv => jsSetKey (srvCfg7 u env) "tools" tv
    | none => srvCfg7 u env

def srvCfg9 (u : List (String × JVal)) (env : ServerEnv) : List (String × JVal) :=
  if (jsLookup (srvCfg8 u env) "tool_choice").isSome then srvCfg8 u env
  else match env.toolChoiceEnv with
    | some tc => jsSetKey (srvCfg8 u env) "tool_choice" (JVal.jstr tc)
    | none => srvCfg8 u env

/-- `cleanSession`: drop null values (undefined cannot occur here), giving
the object sent as `session.update` after `session.created`. -/
def serverCleanSession (u : List (String × JVal)) (env : ServerEnv) :
    List (String × JVal) :=
  (srvCfg9 u env).filter (fun p => !(isJNull p.2))

/-- The keys `connectToOpenAI` can ever place in `sessionConfig`. -/
def serverAllowedKeys : List String :=
  ["type", "instructions", "turn_detection", "input_audio_transcription",
   "tools", "tool_choice"]

lemma keysOf_stage_subset {fs : List (String × JVal)} {A : List String}
    (hfs : keysOf fs ⊆ A) (k : String) (hk : k ∈ A) (v : JVal) :
    keysOf (jsSetKey fs k v) ⊆ A := by
  intro a ha
  rcases List.mem_cons.mp (keysOf_jsSetKey_subset fs k v ha) with h | h
  · exact h ▸ hk
  · exact hfs h

lemma srvCfg1_keys (u : List (String × JVal)) :
    keysOf (srvCfg1 u) ⊆ serverAllowedKeys := by
  have hbase : keysOf [("type", JVal.jstr "realtime")] ⊆ serverAllowedKeys := by
    simp [keysOf, serverAllowedKeys]
  unfold srvCfg1
  split
  · split
    · exact keysOf_stage_subset hbase _ (by simp [serverAllowedKeys]) _
    · exact hbase
  · exact hbase

lemma srvCfg2_keys (u : List (String × JVal)) :
    keysOf (srvCfg2 u) ⊆ serverAllowedKeys := by
  unfold srvCfg2
  split
  · split
    · exact keysOf_stage_subset (srvCfg1_keys u) _ (by simp [serverAllowedKeys]) _
    · exact srvCfg1_keys u
  · exact srvCfg1_keys u

lemma srvCfg3_keys (u : List (String × JVal)) :
    keysOf (srvCfg3 u) ⊆ serverAllowedKeys := by
  unfold srvCfg3
  split
  · split
    · exact keysOf_stage_subset (srvCfg2_keys u) _ (by simp [serverAllowedKeys]) _
    · exact srvCfg2_keys u
  · exact srvCfg2_keys u

lemma srvCfg4_keys (u : List (String × JVal)) :
    keysOf (srvCfg4 u) ⊆ serverAllowedKeys := by
  unfold srvCfg4
  split
  · exact keysOf_stage_subset (srvCfg3_keys u) _ (by simp [serverAllowedKeys]) _
  · exact srvCfg3_keys u

lemma srvCfg5_keys (u : List (String × JVal)) :
    keysOf (srvCfg5 u) ⊆ serverAllowedKeys := by
  unfold srvCfg5
  split
  · exact keysOf_stage_subset (srvCfg4_keys u) _ (by simp [serverAllowedKeys]) _
  · exact srvCfg4_keys u

lemma srvCfg6_keys (u : List (String × JVal)) (env : ServerEnv) :
    keysOf (srvCfg6 u env) ⊆ serverAllowedKeys := by
  unfold srvCfg6
  split
  · exact srvCfg5_keys u
  · exact keysOf_stage_subset (srvCfg5_keys u) _ (by simp [serverAllowedKeys]) _

lemma srvCfg7_keys (u : List (String × JVal)) (env : ServerEnv) :
    keysOf (srvCfg7 u env) ⊆ serverAllowedKeys := by
  unfold srvCfg7
  split
  · exact srvCfg6_keys u env
  · split
    · exact keysOf_stage_subset (srvCfg6_keys u env) _ (by simp [serverAllowedKeys]) _
    · exact srvCfg6_keys u env

lemma srvCfg8_keys (u : List (String × JVal)) (env : ServerEnv) :
    keysOf (srvCfg8 u env) ⊆ serverAllowedKeys := by
  unfold srvCfg8
  split
  · exact srvCfg7_keys u env
  · split
    · exact keysOf_stage_subset (srvCfg7_keys u env) _ (by simp [serverAllowedKeys]) _
    · exact srvCfg7_keys u env

lemma srvCfg9_keys (u : List (String × JVal)) (env : ServerEnv) :
    keysOf (srvCfg9 u env) ⊆ serverAllowedKeys := by
  unfold srvCfg9
  split
  · exact srvCfg8_keys u env
  · split
    · exact keysOf_stage_subset (srvCfg8_keys u env) _ (by simp [serverAllowedKeys]) _
    · exact srvCfg8_keys u env

lemma serverCleanSession_keys (u : List (String × JVal)) (env : ServerEnv) :
    keysOf (serverCleanSession u env) ⊆ serverAllowedKeys := by
  intro a ha
  simp only [serverCleanSession, keysOf, List.mem_map] at ha
  obtain ⟨p, hp, rfl⟩ := ha
  exact srvCfg9_keys u env (List.mem_map.mpr ⟨p, (List.mem_filter.mp hp).1, rfl⟩)

lemma jsLookup_eq_none_of_not_mem (fs : List (String × JVal)) (k : String)
    (h : k ∉ keysOf fs) : jsLookup fs k = none := by
  induction fs with
  | nil => rfl
  | cons p rest ih =>
    obtain ⟨k₀, v₀⟩ := p
    simp only [keysOf, List.map_cons, List.mem_cons] at h
    push_neg at h
    rw [show jsLookup ((k₀, v₀) :: rest) k =
        if k₀ = k then some v₀ else jsLookup rest k from rfl,
      if_neg (Ne.symm h.1)]
    exact ih (by simpa [keysOf] using h.2)

/-- C2 (amended): the edge bridge's `session.update` (sent on model-socket
open) always carries `g711_ulaw` in both audio-format directions,
whatever the control-plane defaults say; the standalone bridge's
`session.update` — the payload forwarded verbatim after `session.created`
— contains no audio-format field at all, for every combination of
carrier-provided overrides and env defaults. -/
theorem session_update_codec (envE : ControlEnv) (u : List (String × JVal))
    (envS : ServerEnv) (s : BridgeState) (cfg : List (String × JVal)) :
    jsLookup (connectSessionUpdateSession envE) "input_audio_format" =
      some (JVal.jstr "g711_ulaw") ∧
    jsLookup (connectSessionUpdateSession envE) "output_audio_format" =
      some (JVal.jstr "g711_ulaw") ∧
    jsLookup (serverCleanSession u envS) "input_audio_format" = none ∧
    jsLookup (serverCleanSession u envS) "output_audio_format" = none ∧
    (s.pendingSessionConfig = some cfg →
      handleOpenAIMessage s .sessionCreated =
        ({ s with pendingSessionConfig := none }, [.sessionUpdate cfg])) := by
  refine ⟨?_, ?_, ?_, ?_, ?_⟩
  · unfold connectSessionUpdateSession
    rw [jsLookup_jsSetKey_of_ne _ _ _ _ (by decide)]
    exact jsLookup_jsSetKey_self ..
  · exact jsLookup_jsSetKey_self ..
  · refine jsLookup_eq_none_of_not_mem _ _ (fun hmem => ?_)
    have := serverCleanSession_keys u envS hmem
    simp [serverAllowedKeys] at this
  · refine jsLookup_eq_none_of_not_mem _ _ (fun hmem => ?_)
    have := serverCleanSession_keys u envS hmem
    simp [serverAllowedKeys] at this
  · intro h
    simp [handleOpenAIMessage, h]

/-- Env defaults used for the concrete C2 instances below (server bridge:
the source defaults; edge control plane: a `pcm16`-preferring codec that
the edge bridge must override). -/
def demoServerEnv : ServerEnv :=
  ⟨"server_vad", 1/2, 300, 500, true, false, none, none⟩

def demoControlEnv : ControlEnv :=
  ⟨none, none, none, none, "server_vad", 1/2, 300, 200, "", "pcm16", false, none⟩

/-- Witness for the amended C2: at concrete inputs the edge bridge's update
carries `g711_ulaw` both ways even though the control-plane default prefers
`pcm16`, and `session.created` makes the standalone bridge send exactly its
pending config. -/
theorem session_update_codec_witness :
    jsLookup (connectSessionUpdateSession demoControlEnv) "input_audio_format" =
      some (JVal.jstr "g711_ulaw") ∧
    jsLookup (connectSessionUpdateSession demoControlEnv) "output_audio_format" =
      some (JVal.jstr "g711_ulaw") ∧
    handleOpenAIMessage
        ⟨"MZ2", none, none, none, false, false,
          some [("type", JVal.jstr "realtime")], true, true⟩ .sessionCreated =
      (⟨"MZ2", none, none, none, false, false, none, true, true⟩,
        [.sessionUpdate [("type", JVal.jstr "realtime")]]) := by
  have h := session_update_codec demoControlEnv [] demoServerEnv
    ⟨"MZ2", none, none, none, false, false,
      some [("type", JVal.jstr "realtime")], true, true⟩
    [("type", JVal.jstr "realtime")]
  exact ⟨h.1, h.2.1, h.2.2.2.2 rfl⟩

/-- Counterexample to C2 as stated: at the default env and with no carrier
overrides, the `session.update` payload the standalone bridge sends right
after `session.created` contains neither `input_audio_format` nor
`output_audio_format` — in particular it does not carry `g711_ulaw` in
either direction. -/
theorem session_update_codec_counterexample :
    jsLookup (serverCleanSession [] demoServerEnv) "input_audio_format" = none ∧
    jsLookup (serverCleanSession [] demoServerEnv) "output_audio_format" = none ∧
    (handleOpenAIMessage
        ⟨"MZ1", none, none, none, false, false,
          some (serverCleanSession [] demoServerEnv), true, true⟩
        .sessionCreated).2 =
      [.sessionUpdate (serverCleanSession [] demoServerEnv)] := by
  exact ⟨rfl, rfl, rfl⟩

/-! ## Bridge credential extraction
(`wss.on('connection', ...)` in `src/twilio-websocket-server/server.js`)

The connection handler tries, in order: (1) the URL path segment after the
leading `/`, decoded with `decodeURIComponent`; (2) the `secret` query
parameter via `URLSearchParams`; (3) the `url.parse` fallback.  With no
(nonempty) credential it closes the carrier socket with code 1008 before
attaching any message handler — so before any carrier frame is processed.

`decodeURIComponent` raises `URIError` on a malformed or non-UTF-8 percent
sequence; the connection callback is `async`, so that exception only
reaches the process-level `unhandledRejection` logger: the carrier socket
is then neither closed nor served (`ConnAction.abortedByError` below).
The query-string decoders (`URLSearchParams`, `querystring`) never throw:
they leave malformed sequences in place.  String splitting is modelled
over character lists. -/

/-- `str.split(sep)` for a one-character separator. -/
def chSplit (sep : Char) : List Char → List (List Char)
  | [] => [[]]
  | c :: rest =>
    let r := chSplit sep rest
    if c = sep then [] :: r else (c :: r.headD []) :: r.tail

def hexVal (c : Char) : Option Nat :=
  if '0' ≤ c ∧ c ≤ '9' then some (c.toNat - 48)
  else if 'a' ≤ c ∧ c ≤ 'f' then some (c.toNat - 87)
  else if 'A' ≤ c ∧ c ≤ 'F' then some (c.toNat - 55)
  else none

def lookupStr : List (String × String) → String → Option String
  | [], _ => none
  | (k, v) :: rest, key => if k = key then some v else lookupStr rest key

/-- JS truthiness of a nullable string (`null` and `""` are falsy). -/
def jsStrTruthy : Option String → Bool
  | none => false
  | some s => s ≠ ""

def add32 (a b : Nat) : Nat := (a + b) % 4294967296

def rotr32 (n w : Nat) : Nat := ((w >>> n) ||| (w <<< (32 - n))) % 4294967296

def bigS0 (w : Nat) : Nat := rotr32 2 w ^^^ rotr32 13 w ^^^ rotr32 22 w
def bigS1 (w : Nat) : Nat := rotr32 6 w ^^^ rotr32 11 w ^^^ rotr32 25 w
def smallS0 (w : Nat) : Nat := rotr32 7 w ^^^ rotr32 18 w ^^^ (w >>> 3)
def smallS1 (w : Nat) : Nat := rotr32 17 w ^^^ rotr32 19 w ^^^ (w >>> 10)
def chF (x y z : Nat) : Nat := (x &&& y) ^^^ ((x ^^^ 4294967295) &&& z)
def majF (x y z : Nat) : Nat := (x &&& y) ^^^ (x &&& z) ^^^ (y &&& z)

def sha256K : List Nat :=
  [1116352408, 1899447441, 3049323471, 3921009573, 961987163,
   1508970993, 2453635748, 2870763221, 3624381080, 310598401,
   607225278, 1426881987, 1925078388, 2162078206, 2614888103,
   3248222580, 3835390401, 4022224774, 264347078, 604807628,
   770255983, 1249150122, 1555081692, 1996064986, 2554220882,
   2821834349, 2952996808, 3210313671, 3336571891, 3584528711,
   113926993, 338241895, 666307205, 773529912, 1294757372,
   1396182291, 1695183700, 1986661051, 2177026350, 2456956037,
   2730485921, 2820302411, 3259730800, 3345764771, 3516065817,
   3600352804, 4094571909, 275423344, 430227734, 506948616,
   659060556, 883997877, 958139571, 1322822218, 1537002063,
   1747873779, 1955562222, 2024104815, 2227730452, 2361852424,
   2428436474, 2756734187, 3204031479, 3329325298]

def sha256H0 : List Nat :=
  [1779033703, 3144134277, 1013904242, 2773480762,
   1359893119, 2600822924, 528734635, 1541459225]

/-- Split into chunks of `n` bytes (fuel-driven so that the kernel can
evaluate it; the fuel `l.length` always suffices since each step consumes
at least one element). -/
def chunksGo (n : Nat) : Nat → List Nat → List (List Nat)
  | 0, _ => []
  | _, [] => []
  | Nat.succ fuel, l@(_ :: _) => l.take n :: chunksGo n fuel (l.drop n)

def chunks64 (l : List Nat) : List (List Nat) := chunksGo 64 l.length l

def chunks4 (l : List Nat) : List (List Nat) := chunksGo 4 l.length l

def be32 (w : Nat) : List Nat :=
  [(w >>> 24) % 256, (w >>> 16) % 256, (w >>> 8) % 256, w % 256]

def be64 (n : Nat) : List Nat :=
  [(n >>> 56) % 256, (n >>> 48) % 256, (n >>> 40) % 256, (n >>> 32) % 256,
   (n >>> 24) % 256, (n >>> 16) % 256, (n >>> 8) % 256, n % 256]

/-- FIPS 180-4 padding: `0x80`, zeros to 56 mod 64, 8-byte big-endian bit
length. -/
def sha256Pad (m : List Nat) : List Nat :=
  m ++ 128 :: List.replicate ((119 - m.length % 64) % 64) 0 ++ be64 (8 * m.length)

/-- Extend the 16 block words to the 64-entry message schedule. -/
def extendSchedule (ws : List Nat) : Nat → List Nat
  | 0 => ws
  | Nat.succ k =>
    extendSchedule (ws ++
      [(smallS1 (ws.getD (ws.length - 2) 0) + ws.getD (ws.length - 7) 0 +
        smallS0 (ws.getD (ws.length - 15) 0) + ws.getD (ws.length - 16) 0)
          % 4294967296]) k

/-- One SHA-256 compression of a 64-byte block into the hash state. -/
def sha256Compress (hs : List Nat) (block : List Nat) : List Nat :=
  let w := extendSchedule
    ((chunks4 block).map (·.foldl (fun acc x => acc * 256 + x) 0)) 48
  let st := (List.range 64).foldl (fun (st : List Nat) i =>
    match st with
    | [a, b, c, d, e, f, g, hh] =>
      let t1 := (hh + bigS1 e + chF e f g + sha256K.getD i 0 + w.getD i 0)
        % 4294967296
      let t2 := (bigS0 a + majF a b c) % 4294967296
      [(t1 + t2) % 4294967296, a, b, c, (d + t1) % 4294967296, e, f, g]
    | other => other) hs
  List.zipWith add32 hs st

def sha256 (msg : List Nat) : List Nat :=
  (((chunks64 (sha256Pad msg)).foldl sha256Compress sha256H0).map be32).flatten

/-- RFC 2104 HMAC over SHA-256 (64-byte block size). -/
def hmacSha256 (key msg : List Nat) : List Nat :=
  let k0 := if 64 < key.length then sha256 key else key
  let kp := k0 ++ List.replicate (64 - k0.length) 0
  sha256 ((kp.map (fun b => b ^^^ 92)) ++
    sha256 ((kp.map (fun b => b ^^^ 54)) ++ msg))

/-- Bytes of a JS string (`Buffer.from(str)` is UTF-8; this agrees with it
on the ASCII data this code signs). -/
def strBytes (s : String) : List Nat := s.data.map Char.toNat

def hexEncode (bs : List Nat) : String :=
  String.mk ((bs.map fun b => [hexDigitChar (b / 16 % 16), hexDigitChar (b % 16)]).flatten)

/-- `Buffer.from(hex, 'hex')` on well-formed hex input. -/
def hexDecodePairs : List Char → List Nat
  | a :: b :: rest =>
    (match hexVal a, hexVal b with
     | some x, some y => (16 * x + y) :: hexDecodePairs rest
     | _, _ => [])
  | _ => []

def base64Table : List Char :=
  "ABCDEFGHIJKLMNOPQRSTUVWXYZabcdefghijklmnopqrstuvwxyz0123456789+/".data

def chunks3 (l : List Nat) : List (List Nat) := chunksGo 3 l.length l

def base64Chunk : List Nat → List Char
  | [b0, b1, b2] =>
    [base64Table.getD (b0 >>> 2) ' ',
     base64Table.getD (((b0 &&& 3) <<< 4) ||| (b1 >>> 4)) ' ',
     base64Table.getD (((b1 &&& 15) <<< 2) ||| (b2 >>> 6)) ' ',
     base64Table.getD (b2 &&& 63) ' ']
  | [b0, b1] =>
    [base64Table.getD (b0 >>> 2) ' ',
     base64Table.getD (((b0 &&& 3) <<< 4) ||| (b1 >>> 4)) ' ',
     base64Table.getD ((b1 &&& 15) <<< 2) ' ', '=']
  | [b0] =>
    [base64Table.getD (b0 >>> 2) ' ',
     base64Table.getD ((b0 &&& 3) <<< 4) ' ', '=', '=']
  | _ => []

/-- `Buffer.toString('base64')`: standard alphabet with `=` padding. -/
def base64Encode (bs : List Nat) : String :=
  String.mk ((chunks3 bs).map base64Chunk).flatten

example : hexEncode (sha256 []) =
  "e3b0c44298fc1c149afbf4c8996fb92427ae41e4649b934ca495991b7852b855" := by
  decide

example : hexEncode (sha256 (strBytes "abc")) =
  "ba7816bf8f01cfea414140de5dae2223b00361a396177a9cb410ff61f20015ad" := by
  decide

example : hexEncode (hmacSha256 (strBytes "Jefe")
    (strBytes "what do ya want for nothing?")) =
  "5bdcc146bf60754e6a042426089575c75a003f089d2739839dec58b964ec3843" := by
  decide

/-! ## `verifyHmacSignature` (`src/lib/webhooks.ts`) -/

/-- ASCII whitespace for `trim()` / `parseInt` leading-space skipping. -/
def isJsSpace (c : Char) : Bool :=
  c = ' ' ∨ c = Char.ofNat 9 ∨ c = Char.ofNat 10 ∨ c = Char.ofNat 11 ∨
    c = Char.ofNat 12 ∨ c = Char.ofNat 13

def chTrim (l : List Char) : List Char :=
  ((l.dropWhile isJsSpace).reverse.dropWhile isJsSpace).reverse

def parseDigits (l : List Char) : Option Nat :=
  match l.takeWhile Char.isDigit with
  | [] => none
  | ds => some (ds.foldl (fun acc c => acc * 10 + (c.toNat - 48)) 0)

/-- `parseInt(s, 10)`: skip leading whitespace, optional sign, maximal
digit run; `none` models `NaN`.  (The float rounding/overflow of very long
digit strings is not modelled; the timestamps handled here are exact.) -/
def jsParseInt (s : String) : Option Int :=
  match s.data.dropWhile isJsSpace with
  | '-' :: rest => (parseDigits rest).map (fun n => -(n : Int))
  | '+' :: rest => (parseDigits rest).map (fun n => (n : Int))
  | rest => (parseDigits rest).map (fun n => (n : Int))

/-- `obj[k] = v` on the signature-header accumulator object. -/
def insertSigPair (m : List (String × String)) (k v : String) :
    List (String × String) :=
  if (lookupStr m k).isSome then
    m.map (fun p => if p.1 = k then (k, v) else p)
  else m ++ [(k, v)]

/-- `parseSignatureHeader`: a raw signature passes through; a signature
containing `=` is parsed as comma-separated `key=value` pairs
(`const [k, v] = p.split('=')` keeps only the first two split pieces and
drops pairs with empty key or value), preferring `v1`, then `sha256`,
then the first collected value. -/
def parseSignatureHeader (sig : Option String) : Option String :=
  match sig with
  | none => none
  | some s =>
    if s = "" then none
    else if s.data.contains '=' then
      let m := ((chSplit ',' s.data).map chTrim).foldl (fun m part =>
        let ks := chSplit '=' part
        let k := String.mk (ks.headD [])
        let v := String.mk (ks.getD 1 [])
        if k ≠ "" ∧ v ≠ "" then insertSigPair m k v else m) []
      match lookupStr m "v1" with
      | some v => some v
      | none =>
        match lookupStr m "sha256" with
        | some v => some v
        | none =>
          match m with
          | (_, v) :: _ => some v
          | [] => none
    else some s

/-- The timestamp freshness check: with a nonempty timestamp that parses
to a finite integer, reject when it is farther than the tolerance from
`now`. -/
def timestampRejected (now : Int) (ts : String) (tol : Int) : Bool :=
  if ts ≠ "" then
    match jsParseInt ts with
    | some t => decide (tol < |now - t|)
    | none => false
  else false

/-- `payload = ts ? `${ts}.${rawBody}` : rawBody`. -/
def signedPayload (ts : String) (rawBody : String) : String :=
  if ts ≠ "" then ts ++ "." ++ rawBody else rawBody

/-- `sig.replace(/^sha256=/, '')`. -/
def stripSha256Eq (s : String) : String :=
  if s.data.take 7 = "sha256=".data then String.mk (s.data.drop 7) else s

/-- The two constant-time comparisons (`timingSafeEqual` is equality with
a length guard, i.e. plain equality of the byte strings): against the hex
digest and against `Buffer.from(hex, 'hex').toString('base64')`. -/
def sigMatchesDigest (sig : String) (digest : List Nat) : Bool :=
  (stripSha256Eq sig = hexEncode digest) ||
  (stripSha256Eq sig = base64Encode (hexDecodePairs (hexEncode digest).data))

/-- `verifyHmacSignature` from `src/lib/webhooks.ts`; `now` is
`Math.floor(Date.now() / 1000)`. -/
def verifyHmacSignature (now : Int) (rawBody : String)
    (signature : Option String) (secret : String)
    (timestamp : Option String) (toleranceSeconds : Int) : Bool :=
  match parseSignatureHeader signature with
  | none => false
  | some sig =>
    if timestampRejected now (timestamp.getD "") toleranceSeconds then false
    else
      sigMatchesDigest sig
        (hmacSha256 (strBytes secret)
          (strBytes (signedPayload (timestamp.getD "") rawBody)))

/-- C7 (the code at the claim's own inputs): with an in-tolerance
timestamp, the hex form of `HMAC-SHA256(secret, ts + "." + body)` is
accepted, but the base64 encoding of the very same digest is rejected:
base64 of a 32-byte digest always ends in `=` padding, which sends
`parseSignatureHeader` into its `key=value` branch, where
`p.split('=')` drops the padding and the comparison fails. -/
theorem base64_signature_never_accepted :
    verifyHmacSignature 1700000000 "hi"
      (some (hexEncode (hmacSha256 (strBytes "k") (strBytes "1700000000.hi"))))
      "k" (some "1700000000") 300 = true ∧
    verifyHmacSignature 1700000000 "hi"
      (some (base64Encode (hmacSha256 (strBytes "k") (strBytes "1700000000.hi"))))
      "k" (some "1700000000") 300 = false ∧
    base64Encode (hmacSha256 (strBytes "k") (strBytes "1700000000.hi")) =
      "nPd86tuLgF8Y5XydI/5TH3D1mzMzDUj0vozDjSRiHh8=" := by
  refine ⟨by decide, by decide, by decide⟩

/-- C10: with no timestamp (or an unparseable one) no freshness check
applies — acceptance is independent of the clock; the HMAC is computed
over the raw body alone when the timestamp is absent, and over
`ts + "." + body` (with the unparseable timestamp still prepended)
otherwise. -/
theorem missing_timestamp_skips_freshness (now now' : Int) (rawBody : String)
    (sig : Option String) (secret : String) (tol tol' : Int) (ts : String)
    (hts : ts ≠ "") (hparse : jsParseInt ts = none) :
    verifyHmacSignature now rawBody sig secret none tol =
      verifyHmacSignature now' rawBody sig secret none tol' ∧
    (verifyHmacSignature now rawBody sig secret none tol = true ↔
      ∃ p, parseSignatureHeader sig = some p ∧
        sigMatchesDigest p
          (hmacSha256 (strBytes secret) (strBytes rawBody)) = true) ∧
    verifyHmacSignature now rawBody sig secret (some ts) tol =
      verifyHmacSignature now' rawBody sig secret (some ts) tol' ∧
    (verifyHmacSignature now rawBody sig secret (some ts) tol = true ↔
      ∃ p, parseSignatureHeader sig = some p ∧
        sigMatchesDigest p
          (hmacSha256 (strBytes secret)
            (strBytes (ts ++ "." ++ rawBody))) = true) := by
  have hrej : ∀ n : Int, ∀ t : Int, timestampRejected n ts t = false := by
    intro n t
    unfold timestampRejected
    rw [if_pos hts, hparse]
  have hrejNone : ∀ n : Int, ∀ t : Int,
      timestampRejected n ((none : Option String).getD "") t = false := by
    intro n t; rfl
  have hpayload : signedPayload ts rawBody = ts ++ "." ++ rawBody := by
    unfold signedPayload
    rw [if_pos hts]
  refine ⟨?_, ?_, ?_, ?_⟩
  · unfold verifyHmacSignature
    cases parseSignatureHeader sig with
    | none => rfl
    | some p => rw [hrejNone now tol, hrejNone now' tol']
  · unfold verifyHmacSignature
    cases hp : parseSignatureHeader sig with
    | none => simp
    | some p =>
      rw [hrejNone now tol]
      simp only [Bool.false_eq_true, if_false, Option.getD]
      constructor
      · intro h; exact ⟨p, rfl, h⟩
      · rintro ⟨p', hp', h⟩
        rw [Option.some_inj] at hp'
        exact hp' ▸ h
  · unfold verifyHmacSignature
    cases parseSignatureHeader sig with
    | none => rfl
    | some p =>
      show (if timestampRejected now ts tol then false else _) =
        (if timestampRejected now' ts tol' then false else _)
      rw [hrej now tol, hrej now' tol']
  · unfold verifyHmacSignature
    cases hp : parseSignatureHeader sig with
    | none => simp
    | some p =>
      show (if timestampRejected now ts tol then false else
        sigMatchesDigest p (hmacSha256 (strBytes secret)
          (strBytes (signedPayload ts rawBody)))) = true ↔ _
      rw [hrej now tol]
      simp only [Bool.false_eq_true, if_false, hpayload]
      constructor
      · intro h; exact ⟨p, rfl, h⟩
      · rintro ⟨p', hp', h⟩
        rw [Option.some_inj] at hp'
        exact hp' ▸ h

/-- Witness for C10 at `ts = "ten"` (unparseable), two different clocks,
and a matching hex signature over `"ten.hi"`. -/
theorem missing_timestamp_skips_freshness_witness :
    ("ten" ≠ "" ∧ jsParseInt "ten" = none) ∧
    (verifyHmacSignature 0 "hi"
        (some "e4ec2b5e8ff688057c8a91a6eb298795e800222ed4d4924519d8fb697916a4b9")
        "k" (some "ten") 300 =
      verifyHmacSignature 1000000000 "hi"
        (some "e4ec2b5e8ff688057c8a91a6eb298795e800222ed4d4924519d8fb697916a4b9")
        "k" (some "ten") 300) ∧
    verifyHmacSignature 0 "hi"
      (some "e4ec2b5e8ff688057c8a91a6eb298795e800222ed4d4924519d8fb697916a4b9")
      "k" (some "ten") 300 = true := by
  have h := missing_timestamp_skips_freshness 0 1000000000 "hi"
    (some "e4ec2b5e8ff688057c8a91a6eb298795e800222ed4d4924519d8fb697916a4b9")
    "k" 300 300 "ten" (by decide) (by decide)
  refine ⟨⟨by decide, by decide⟩, h.2.2.1, ?_⟩
  exact h.2.2.2.mpr ⟨"e4ec2b5e8ff688057c8a91a6eb298795e800222ed4d4924519d8fb697916a4b9",
    by decide, by decide⟩

/-! ## `POST /control` authorization
(`src/app/api/realtime/control/route.ts`)

The handler first evaluates `const body = raw ? JSON.parse(raw) : {}` —
outside its try block, before any authorization — so a non-empty body
that `JSON.parse` rejects throws and the route answers 500.  Otherwise it
computes `hasBearerOk` via `verifySecret` and `hasHmacOk` via
`verifyHmacSignature` (each check defaulting to authorized when its
secret is not configured) and answers 401 only when both fail; 200 stands
for the success response `{events: [...]}`.  `JSON.parse` is embedded as
the ECMA-404 well-formedness check below (its parse result never feeds
the authorization logic, only whether it throws matters). -/

/-- JSON whitespace (space, tab, LF, CR — exactly what `JSON.parse`
skips). -/
def jsonWs (c : Char) : Bool :=
  c = ' ' ∨ c = Char.ofNat 9 ∨ c = Char.ofNat 10 ∨ c = Char.ofNat 13

def skipWs (l : List Char) : List Char := l.dropWhile jsonWs

/-- Consume the remainder of a JSON string (after the opening quote):
no raw control characters, escapes limited to
`" \ / b f n r t uXXXX`. -/
def jsonStringRest : List Char → Option (List Char)
  | [] => none
  | '"' :: rest => some rest
  | '\\' :: e :: rest =>
    if e = '"' ∨ e = '\\' ∨ e = '/' ∨ e = 'b' ∨ e = 'f' ∨ e = 'n' ∨
        e = 'r' ∨ e = 't' then
      jsonStringRest rest
    else if e = 'u' then
      match rest with
      | a :: b :: c :: d :: rest2 =>
        if (hexVal a).isSome ∧ (hexVal b).isSome ∧ (hexVal c).isSome ∧
            (hexVal d).isSome then
          jsonStringRest rest2
        else none
      | _ => none
    else none
  | c :: rest => if c.toNat < 32 then none else jsonStringRest rest

/-- One or more decimal digits. -/
def jsonDigits (l : List Char) : Option (List Char) :=
  match l.takeWhile Char.isDigit with
  | [] => none
  | ds => some (l.drop ds.length)

/-- Optional fraction (`.` digits) and exponent (`e|E` sign? digits) of a
JSON number. -/
def jsonFracExp (l : List Char) : Option (List Char) :=
  match (match l with
    | '.' :: r => jsonDigits r
    | _ => some l) with
  | none => none
  | some l2 =>
    match l2 with
    | e :: r =>
      if e = 'e' ∨ e = 'E' then
        jsonDigits (match r with
          | s :: r2 => if s = '+' ∨ s = '-' then r2 else r
          | [] => r)
      else some l2
    | [] => some l2

/-- A JSON number's integer part (after an optional leading `-`): a bare
`0` or a nonzero digit followed by digits, then fraction/exponent. -/
def jsonNumberRest : List Char → Option (List Char)
  | '0' :: rest => jsonFracExp rest
  | c :: rest => if c.isDigit then jsonFracExp (rest.dropWhile Char.isDigit)
      else none
  | [] => none

def jsonLit (lit : List Char) (l : List Char) : Option (List Char) :=
  if l.take lit.length = lit then some (l.drop lit.length) else none

/-- Parser modes: a value, or the inside of an object/array (either right
after the opening bracket or after a complete member/element). -/
inductive JsonMode where
  | value
  | objBody
  | objAfter
  | arrBody
  | arrAfter
deriving DecidableEq

/-- The ECMA-404 grammar walked with explicit fuel (so the kernel can
evaluate it); consuming a value returns the remaining input.  Fuel
`2 * length + 2` suffices: every parsing step but `arrBody → value`
consumes input, and each such step follows a consumed `[`. -/
def jsonP : Nat → JsonMode → List Char → Option (List Char)
  | 0, _, _ => none
  | Nat.succ f, .value, l =>
    match skipWs l with
    | [] => none
    | c :: rest =>
      if c = '"' then jsonStringRest rest
      else if c = '\x7b' then jsonP f .objBody rest
      else if c = '[' then jsonP f .arrBody rest
      else if c = 't' then jsonLit ['r', 'u', 'e'] rest
      else if c = 'f' then jsonLit ['a', 'l', 's', 'e'] rest
      else if c = 'n' then jsonLit ['u', 'l', 'l'] rest
      else if c = '-' then jsonNumberRest rest
      else if c.isDigit then jsonNumberRest (c :: rest)
      else none
  | Nat.succ f, .objBody, l =>
    match skipWs l with
    | [] => none
    | c :: rest =>
      if c = '\x7d' then some rest
      else if c = '"' then
        match jsonStringRest rest with
        | some r2 =>
          match skipWs r2 with
          | ':' :: r3 =>
            match jsonP f .value r3 with
            | some r4 => jsonP f .objAfter r4
            | none => none
          | _ => none
        | none => none
      else none
  | Nat.succ f, .objAfter, l =>
    match skipWs l with
    | [] => none
    | c :: rest =>
      if c = '\x7d' then some rest
      else if c = ',' then
        match skipWs rest with
        | '"' :: r1 =>
          match jsonStringRest r1 with
          | some r2 =>
            match skipWs r2 with
            | ':' :: r3 =>
              match jsonP f .value r3 with
              | some r4 => jsonP f .objAfter r4
              | none => none
            | _ => none
          | none => none
        | _ => none
      else none
  | Nat.succ f, .arrBody, l =>
    match skipWs l with
    | ']' :: rest => some rest
    | _ =>
      match jsonP f .value l with
      | some r1 => jsonP f .arrAfter r1
      | none => none
  | Nat.succ f, .arrAfter, l =>
    match skipWs l with
    | [] => none
    | c :: rest =>
      if c = ']' then some rest
      else if c = ',' then
        match jsonP f .value rest with
        | some r1 => jsonP f .arrAfter r1
        | none => none
      else none

/-- Whether `JSON.parse` accepts the string: one value, with only JSON
whitespace around it. -/
def jsonParses (s : String) : Bool :=
  match jsonP (2 * s.data.length + 2) .value s.data with
  | some rest => skipWs rest = []
  | none => false

example : jsonParses "\x7b\"a\":[1,-2.5e-3,true,null,\"x\\n\"]\x7d" = true := by
  decide

example : jsonParses " 5 " = true := by decide

example : jsonParses "hi" = false := by decide

example : jsonParses "\x7b" = false := by decide

example : jsonParses "01" = false := by decide

example : jsonParses "\x7b\"a\":1\x7d extra" = false := by decide

/-- `a || b` over nullable header strings. -/
def jsOrOpt (a b : Option String) : Option String :=
  if jsStrTruthy a then a else b

/-- The env vars the route consults (all nullable). -/
structure CtrlEnv where
  controlSecret : Option String
  signingSecret : Option String
  toleranceEnv : Option String

/-- The request headers the route consults, plus the raw body. -/
structure CtrlReq where
  authorization : Option String
  xWebhookSecret : Option String
  sig1 : Option String
  sig2 : Option String
  ts1 : Option String
  ts2 : Option String
  rawBody : String

/-- `verifySecret`: pass when `REALTIME_CONTROL_SECRET` is unset (or
empty, which is falsy); otherwise accept a `Bearer ` token or the
`x-webhook-secret` header equal to it. -/
def verifySecretFn (env : CtrlEnv) (req : CtrlReq) : Bool :=
  match env.controlSecret with
  | none => true
  | some e =>
    if e = "" then true
    else
      let auth := req.authorization.getD ""
      let hsec := req.xWebhookSecret.getD ""
      if auth.data.take 7 = "Bearer ".data ∧ String.mk (auth.data.drop 7) = e then
        true
      else if hsec ≠ "" ∧ hsec = e then true
      else false

/-- `parseInt(process.env.REALTIME_CONTROL_TOLERANCE_SECONDS || '300', 10)`
with the `Number.isFinite` fallback to 300. -/
def controlTolerance (env : CtrlEnv) : Int :=
  match jsParseInt ((jsOrOpt env.toleranceEnv (some "300")).getD "300") with
  | some t => t
  | none => 300

/-- `hasHmacOk`: true when no signing secret is configured, else the HMAC
verification over the first available signature and timestamp headers. -/
def hmacOkFn (now : Int) (env : CtrlEnv) (req : CtrlReq) : Bool :=
  match env.signingSecret with
  | none => true
  | some s =>
    if s = "" then true
    else verifyHmacSignature now req.rawBody (jsOrOpt req.sig1 req.sig2) s
      (jsOrOpt req.ts1 req.ts2) (controlTolerance env)

/-- The HTTP status of `POST /control`: a non-empty body rejected by
`JSON.parse` throws before the checks (500 from the framework); then
`if (!hasBearerOk && !hasHmacOk) return 401`, else the 200 success path. -/
def controlPostStatus (now : Int) (env : CtrlEnv) (req : CtrlReq) : Nat :=
  if req.rawBody ≠ "" ∧ jsonParses req.rawBody = false then 500
  else if ¬(verifySecretFn env req = true) ∧ ¬(hmacOkFn now env req = true) then
    401
  else 200

/-- C8 (amended): a non-empty request body that `JSON.parse` rejects makes
`/control` answer 500 before any authorization check.  For requests whose
body is empty or valid JSON, the answer is 401 exactly when both the
bearer check and the HMAC check fail; a check whose secret is
unconfigured (unset or empty) passes automatically, so configuring only
one of the two secrets means the endpoint never returns 401.  The claim's
stale-timestamp instance (valid signature, timestamp 400 s old, tolerance
300) yields 401 when both secrets are configured and no valid bearer
token is presented. -/
theorem control_401_requires_both_checks_failing (now : Int) (env : CtrlEnv)
    (req : CtrlReq) :
    (req.rawBody ≠ "" → jsonParses req.rawBody = false →
      controlPostStatus now env req = 500) ∧
    ((req.rawBody = "" ∨ jsonParses req.rawBody = true) →
      (controlPostStatus now env req = 401 ↔
        verifySecretFn env req = false ∧ hmacOkFn now env req = false) ∧
      (jsStrTruthy env.controlSecret = false →
        controlPostStatus now env req = 200) ∧
      (jsStrTruthy env.signingSecret = false →
        controlPostStatus now env req = 200)) := by
  refine ⟨?_, ?_⟩
  · intro hne hpa
    unfold controlPostStatus
    rw [if_pos ⟨hne, hpa⟩]
  · intro hpar
    have hok : controlPostStatus now env req =
        if ¬(verifySecretFn env req = true) ∧ ¬(hmacOkFn now env req = true)
          then 401 else 200 := by
      unfold controlPostStatus
      rw [if_neg (by rcases hpar with h | h <;> simp [h])]
    rw [hok]
    refine ⟨?_, ?_, ?_⟩
    · constructor
      · intro h
        by_cases hb : verifySecretFn env req = true
        · rw [if_neg (by simp [hb])] at h
          cases h
        · by_cases hh : hmacOkFn now env req = true
          · rw [if_neg (by simp [hh])] at h
            cases h
          · exact ⟨Bool.eq_false_iff.mpr hb, Bool.eq_false_iff.mpr hh⟩
      · rintro ⟨hb, hh⟩
        rw [if_pos ⟨by simp [hb], by simp [hh]⟩]
    · intro h
      have hb : verifySecretFn env req = true := by
        unfold verifySecretFn
        rcases hcs : env.controlSecret with _ | e
        · rfl
        · rw [hcs] at h
          have : e = "" := by
            by_contra hne
            simp [jsStrTruthy, hne] at h
          dsimp only
          rw [if_pos this]
      rw [if_neg (by simp [hb])]
    · intro h
      have hh : hmacOkFn now env req = true := by
        unfold hmacOkFn
        rcases hcs : env.signingSecret with _ | s
        · rfl
        · rw [hcs] at h
          have : s = "" := by
            by_contra hne
            simp [jsStrTruthy, hne] at h
          dsimp only
          rw [if_pos this]
      rw [if_neg (by simp [hh])]

/-- Witness for the amended C8: with both secrets configured and an empty
or valid-JSON body (`\x7b\x7d`), no bearer token, valid-format signature
but timestamp 400 s in the past under tolerance 300, the response is 401
(spec scenario S6); the same request with the non-JSON body `hi` gets 500
before the checks. -/
theorem control_401_requires_both_checks_failing_witness :
    jsonParses "\x7b\x7d" = true ∧
    controlPostStatus 1700000400 ⟨some "s", some "k", none⟩
      ⟨none, none, some "deadbeef", none, some "1700000000", none,
        "\x7b\x7d"⟩ = 401 ∧
    controlPostStatus 0 ⟨some "s", some "k", none⟩
      ⟨none, none, some "deadbeef", none, some "1700000000", none, "hi"⟩ =
      500 := by
  refine ⟨by decide, ?_, ?_⟩
  · exact (((control_401_requires_both_checks_failing 1700000400
      ⟨some "s", some "k", none⟩
      ⟨none, none, some "deadbeef", none, some "1700000000", none,
        "\x7b\x7d"⟩).2 (Or.inr (by decide))).1).mpr ⟨by decide, by decide⟩
  · exact (control_401_requires_both_checks_failing 0
      ⟨some "s", some "k", none⟩
      ⟨none, none, some "deadbeef", none, some "1700000000", none, "hi"⟩).1
      (by decide) (by decide)

/-- Counterexample to C8 as stated: with the bearer secret configured but
no signing secret, a request presenting no credentials at all is answered
200, not 401 — the missing HMAC configuration counts as authorized.  And
with both secrets configured, a credential-less request whose body is not
valid JSON is answered 500, not 401 — `JSON.parse` throws before the
authorization checks run. -/
theorem control_single_secret_no_401 :
    controlPostStatus 0 ⟨some "topsecret", none, none⟩
      ⟨none, none, none, none, none, none, ""⟩ = 200 ∧
    verifySecretFn ⟨some "topsecret", none, none⟩
      ⟨none, none, none, none, none, none, ""⟩ = false ∧
    controlPostStatus 0 ⟨some "topsecret", some "k", none⟩
      ⟨none, none, none, none, none, none, "hi"⟩ = 500 := by
  exact ⟨by decide, by decide, by decide⟩

end VerbCaller